import Mathlib

/-!
Verification of the engagement-scoring core, the ranker and the
channel-deduplicating collection loop of `youtube_shorts_analyzer.py`
(class `YouTubeShortsAnalyzer`).  Timestamps are modelled as integer
seconds since an epoch; the numeric metrics are modelled over `ℝ`,
idealising Python floats as real numbers.
-/

namespace YTShorts

/-- Python's built-in `round` to zero decimal places, on a real number:
round half to even (banker's rounding).  On a tie (fractional part exactly
`1/2`) it picks the even neighbour; otherwise it rounds to the nearest
integer. -/
noncomputable def pyRound (x : ℝ) : ℤ :=
  if x - ⌊x⌋ = 1 / 2 then (if Even ⌊x⌋ then ⌊x⌋ else ⌊x⌋ + 1) else round x

/-- The source expression `round(x, 2)`: round to two decimal places. -/
noncomputable def round2 (x : ℝ) : ℝ := (pyRound (x * 100) : ℝ) / 100

theorem pyRound_le_add_half (x : ℝ) : (pyRound x : ℝ) ≤ x + 1 / 2 := by
  unfold pyRound
  split_ifs with h he
  · have : (⌊x⌋ : ℝ) ≤ x := Int.floor_le x
    linarith
  · have : (⌊x⌋ : ℝ) = x - 1 / 2 := by linarith
    push_cast
    linarith
  · exact_mod_cast round_le_add_half x

theorem sub_half_le_pyRound (x : ℝ) : x - 1 / 2 ≤ (pyRound x : ℝ) := by
  unfold pyRound
  split_ifs with h he
  · linarith
  · have : (⌊x⌋ : ℝ) = x - 1 / 2 := by linarith
    push_cast
    linarith
  · have := sub_half_lt_round x
    exact_mod_cast this.le

/-- Away from ties, `pyRound` is ordinary rounding; with strict bounds it is
pinned to the integer `a`. -/
theorem pyRound_eq_of (x : ℝ) (a : ℤ) (h1 : (a : ℝ) - 1 / 2 < x)
    (h2 : x < (a : ℝ) + 1 / 2) : pyRound x = a := by
  unfold pyRound
  have hfl : ⌊x + 1 / 2⌋ = a := by
    rw [Int.floor_eq_iff]
    refine ⟨by linarith, by linarith⟩
  split_ifs with h he
  · exfalso
    have hx : x = (⌊x⌋ : ℝ) + 1 / 2 := by linarith
    have h3 : ((a : ℝ) - 1 : ℝ) < (⌊x⌋ : ℝ) := by linarith
    have h4 : (⌊x⌋ : ℝ) < (a : ℝ) := by linarith
    have h3' : a - 1 < ⌊x⌋ := by exact_mod_cast h3
    have h4' : ⌊x⌋ < a := by exact_mod_cast h4
    omega
  · exfalso
    have hx : x = (⌊x⌋ : ℝ) + 1 / 2 := by linarith
    have h3 : ((a : ℝ) - 1 : ℝ) < (⌊x⌋ : ℝ) := by linarith
    have h4 : (⌊x⌋ : ℝ) < (a : ℝ) := by linarith
    have h3' : a - 1 < ⌊x⌋ := by exact_mod_cast h3
    have h4' : ⌊x⌋ < a := by exact_mod_cast h4
    omega
  · rw [round_eq, hfl]

theorem pyRound_intCast (a : ℤ) : pyRound (a : ℝ) = a := by
  refine pyRound_eq_of _ a (by linarith) (by linarith)

theorem round2_le_add (x : ℝ) : round2 x ≤ x + 1 / 200 := by
  unfold round2
  have h := pyRound_le_add_half (x * 100)
  linarith

theorem sub_le_round2 (x : ℝ) : x - 1 / 200 ≤ round2 x := by
  unfold round2
  have h := sub_half_le_pyRound (x * 100)
  linarith

/-- If `x • 100` lies strictly within half a unit of the integer `a`,
`round2 x` is exactly `a / 100`. -/
theorem round2_eq_of (x : ℝ) (a : ℤ) (h1 : (a : ℝ) - 1 / 2 < x * 100)
    (h2 : x * 100 < (a : ℝ) + 1 / 2) : round2 x = (a : ℝ) / 100 := by
  unfold round2
  rw [pyRound_eq_of (x * 100) a h1 h2]

theorem round2_intCast (a : ℤ) : round2 (a : ℝ) = (a : ℝ) := by
  have h : round2 (a : ℝ) = ((a * 100 : ℤ) : ℝ) / 100 := by
    refine round2_eq_of _ (a * 100) ?_ ?_ <;> push_cast <;> linarith
  rw [h]
  push_cast
  ring

theorem round2_natCast (n : ℕ) : round2 (n : ℝ) = (n : ℝ) := by
  have h := round2_intCast (n : ℤ)
  push_cast at h
  exact h

/-- Rounding to two decimals cannot cross an integer bound from below. -/
theorem round2_le_intCast (x : ℝ) (n : ℤ) (h : x ≤ (n : ℝ)) :
    round2 x ≤ (n : ℝ) := by
  unfold round2
  have h1 : (pyRound (x * 100) : ℝ) ≤ x * 100 + 1 / 2 := pyRound_le_add_half _
  have h2 : (pyRound (x * 100) : ℝ) < ((n * 100 : ℤ) : ℝ) + 1 := by push_cast; linarith
  have h3 : pyRound (x * 100) < n * 100 + 1 := by exact_mod_cast h2
  have h4 : pyRound (x * 100) ≤ n * 100 := by omega
  have h5 : (pyRound (x * 100) : ℝ) ≤ ((n * 100 : ℤ) : ℝ) := by exact_mod_cast h4
  push_cast at h5
  linarith

/-- Rounding to two decimals cannot cross an integer bound from above. -/
theorem intCast_le_round2 (x : ℝ) (n : ℤ) (h : (n : ℝ) ≤ x) :
    (n : ℝ) ≤ round2 x := by
  unfold round2
  have h1 : x * 100 - 1 / 2 ≤ (pyRound (x * 100) : ℝ) := sub_half_le_pyRound _
  have h2 : ((n * 100 : ℤ) : ℝ) - 1 < (pyRound (x * 100) : ℝ) := by push_cast; linarith
  have h3 : n * 100 - 1 < pyRound (x * 100) := by exact_mod_cast h2
  have h4 : n * 100 ≤ pyRound (x * 100) := by omega
  have h5 : ((n * 100 : ℤ) : ℝ) ≤ (pyRound (x * 100) : ℝ) := by exact_mod_cast h4
  push_cast at h5
  linarith

/-- The dictionary returned by
`YouTubeShortsAnalyzer.calculate_engagement_metrics` (source lines 326-374).
The two ratio fields model the keys `likes_to_views_ratio` and
`comments_to_views_ratio` of the source. -/
structure EngagementMetrics where
  engagement_rate : ℝ
  likes_to_views : ℝ
  comments_to_views : ℝ
  avg_views_per_hour : ℝ
  total_engagement : ℕ
  performance_score : ℝ

/-- The all-zero metrics returned on the `view_count == 0` short-circuit
(source lines 327-335). -/
def zeroMetrics : EngagementMetrics :=
  { engagement_rate := 0
    likes_to_views := 0
    comments_to_views := 0
    avg_views_per_hour := 0
    total_engagement := 0
    performance_score := 0 }

/-- The quantity `hours_since_pub` (source line 340): elapsed seconds between the parsed
publication time and the observation instant (`datetime.utcnow()` at call
time), converted to hours and floored at 1. -/
noncomputable def hoursSincePublish (published_at observation_time : ℤ) : ℝ :=
  max (((observation_time - published_at : ℤ) : ℝ) / 3600) 1

/-- The sub-score `normalized_views` (source line 357): log-compressed view count, capped
at 1; the divisor 8 corresponds to `log10(100M) ≈ 8`. -/
noncomputable def normalized_views (view_count : ℕ) : ℝ :=
  min (Real.logb 10 ((view_count : ℝ) + 1) / 8) 1

/-- The method `calculate_engagement_metrics` (source lines 312-374), as a function of
the raw counters, the parsed publication timestamp and the observation
instant (the `datetime.utcnow()` reading), both in integer seconds. -/
noncomputable def computeMetrics (view_count like_count comment_count : ℕ)
    (published_at observation_time : ℤ) : EngagementMetrics :=
  if view_count = 0 then zeroMetrics
  else
    let hours_since_pub : ℝ := hoursSincePublish published_at observation_time
    let total_engagement : ℕ := like_count + comment_count
    let engagement_rate : ℝ := ((total_engagement : ℝ) / (view_count : ℝ)) * 100
    let ltv : ℝ := ((like_count : ℝ) / (view_count : ℝ)) * 100
    let ctv : ℝ := ((comment_count : ℝ) / (view_count : ℝ)) * 100
    let avg_views_per_hour : ℝ := (view_count : ℝ) / hours_since_pub
    let normalized_engagement : ℝ := min (engagement_rate / 20) 1
    let normalized_velocity : ℝ := min (avg_views_per_hour / 10000) 1
    let performance_score : ℝ :=
      (0.4 * normalized_views view_count + 0.3 * normalized_engagement +
        0.3 * normalized_velocity) * 100
    { engagement_rate := round2 engagement_rate
      likes_to_views := round2 ltv
      comments_to_views := round2 ctv
      avg_views_per_hour := round2 avg_views_per_hour
      total_engagement := total_engagement
      performance_score := round2 performance_score }

/-- Real division with an explicit divide-by-zero check, modelling that
Python's `/` raises `ZeroDivisionError` on a zero denominator. -/
noncomputable def checkedDiv (a b : ℝ) : Option ℝ :=
  if b = 0 then none else some (a / b)

/-- The method `calculate_engagement_metrics` with every division checked: returns
`none` exactly when some division in the body would raise
`ZeroDivisionError`. -/
noncomputable def computeMetricsChecked (view_count like_count comment_count : ℕ)
    (published_at observation_time : ℤ) : Option EngagementMetrics :=
  if view_count = 0 then some zeroMetrics
  else
    let hours_since_pub : ℝ := hoursSincePublish published_at observation_time
    let total_engagement : ℕ := like_count + comment_count
    (checkedDiv (total_engagement : ℝ) (view_count : ℝ)).bind fun er0 =>
    (checkedDiv (like_count : ℝ) (view_count : ℝ)).bind fun ltv0 =>
    (checkedDiv (comment_count : ℝ) (view_count : ℝ)).bind fun ctv0 =>
    (checkedDiv (view_count : ℝ) hours_since_pub).bind fun avg0 =>
    let engagement_rate : ℝ := er0 * 100
    let normalized_engagement : ℝ := min (engagement_rate / 20) 1
    let normalized_velocity : ℝ := min (avg0 / 10000) 1
    let performance_score : ℝ :=
      (0.4 * normalized_views view_count + 0.3 * normalized_engagement +
        0.3 * normalized_velocity) * 100
    some
      { engagement_rate := round2 engagement_rate
        likes_to_views := round2 (ltv0 * 100)
        comments_to_views := round2 (ctv0 * 100)
        avg_views_per_hour := round2 avg0
        total_engagement := total_engagement
        performance_score := round2 performance_score }

theorem one_le_hoursSincePublish (p t : ℤ) : 1 ≤ hoursSincePublish p t :=
  le_max_right _ _

theorem hoursSincePublish_pos (p t : ℤ) : 0 < hoursSincePublish p t :=
  lt_of_lt_of_le one_pos (one_le_hoursSincePublish p t)

/-- When less than one hour (3600 seconds) has elapsed, the floor at 1
kicks in. -/
theorem hoursSincePublish_eq_one (p t : ℤ) (h : t - p ≤ 3600) :
    hoursSincePublish p t = 1 := by
  unfold hoursSincePublish
  have h1 : ((t - p : ℤ) : ℝ) ≤ 3600 := by exact_mod_cast h
  have : ((t - p : ℤ) : ℝ) / 3600 ≤ 1 := by linarith
  exact max_eq_right this

/-- Shared totality lemma: the checked evaluation never hits a zero
divisor and agrees with the unchecked model on every input. -/
theorem computeMetricsChecked_eq (v l c : ℕ) (p t : ℤ) :
    computeMetricsChecked v l c p t = some (computeMetrics v l c p t) := by
  unfold computeMetricsChecked computeMetrics
  by_cases hv : v = 0
  · simp [hv]
  · have hv' : ((v : ℝ)) ≠ 0 := Nat.cast_ne_zero.mpr hv
    have hh : hoursSincePublish p t ≠ 0 := (hoursSincePublish_pos p t).ne'
    simp only [hv, if_false, checkedDiv, hv', hh, if_neg, Option.bind_some]
    simp [div_mul_eq_mul_div]

/-- Unfolding lemma for the `view_count ≠ 0` branch of
`calculate_engagement_metrics`. -/
theorem computeMetrics_of_view_pos (v l c : ℕ) (p t : ℤ) (hv : v ≠ 0) :
    computeMetrics v l c p t =
      { engagement_rate := round2 ((((l + c : ℕ) : ℝ) / (v : ℝ)) * 100)
        likes_to_views := round2 (((l : ℝ) / (v : ℝ)) * 100)
        comments_to_views := round2 (((c : ℝ) / (v : ℝ)) * 100)
        avg_views_per_hour := round2 ((v : ℝ) / hoursSincePublish p t)
        total_engagement := l + c
        performance_score := round2
          ((0.4 * normalized_views v +
            0.3 * min (((((l + c : ℕ) : ℝ) / (v : ℝ)) * 100) / 20) 1 +
            0.3 * min (((v : ℝ) / hoursSincePublish p t) / 10000) 1) * 100) } := by
  simp [computeMetrics, hv]

theorem normalized_views_nonneg (v : ℕ) : 0 ≤ normalized_views v := by
  unfold normalized_views
  refine le_min (div_nonneg ?_ (by norm_num)) zero_le_one
  refine Real.logb_nonneg (by norm_num) ?_
  have := Nat.cast_nonneg (α := ℝ) v
  linarith

theorem normalized_views_le_one (v : ℕ) : normalized_views v ≤ 1 :=
  min_le_right _ _

/-- C2 — for every valid input the performance score is between 0
and 100.  The score is a weight-1 convex combination of three sub-scores
each clamped to `[0, 1]`, scaled by 100, and two-decimal rounding cannot
cross the integer bounds 0 and 100. -/
theorem performanceScore_bounds (v l c : ℕ) (p t : ℤ) (h : p ≤ t) :
    0 ≤ (computeMetrics v l c p t).performance_score ∧
      (computeMetrics v l c p t).performance_score ≤ 100 := by
  by_cases hv : v = 0
  · simp [computeMetrics, hv, zeroMetrics]
  · rw [computeMetrics_of_view_pos v l c p t hv]
    set er := ((((l + c : ℕ) : ℝ) / (v : ℝ)) * 100) with her
    set avg := ((v : ℝ) / hoursSincePublish p t) with havg
    have hnv0 : 0 ≤ normalized_views v := normalized_views_nonneg v
    have hnv1 : normalized_views v ≤ 1 := normalized_views_le_one v
    have her0 : 0 ≤ er := by rw [her]; positivity
    have hne0 : 0 ≤ min (er / 20) 1 := le_min (by linarith) zero_le_one
    have hne1 : min (er / 20) 1 ≤ 1 := min_le_right _ _
    have havg0 : 0 ≤ avg := by
      rw [havg]
      exact div_nonneg (Nat.cast_nonneg v) (hoursSincePublish_pos p t).le
    have hvel0 : 0 ≤ min (avg / 10000) 1 := le_min (by linarith) zero_le_one
    have hvel1 : min (avg / 10000) 1 ≤ 1 := min_le_right _ _
    set ps := (0.4 * normalized_views v + 0.3 * min (er / 20) 1 +
      0.3 * min (avg / 10000) 1) * 100 with hps
    have hps0 : 0 ≤ ps := by rw [hps]; nlinarith
    have hps1 : ps ≤ 100 := by rw [hps]; nlinarith
    constructor
    · have := intCast_le_round2 ps 0 (by exact_mod_cast hps0)
      simpa using this
    · have := round2_le_intCast ps 100 (by exact_mod_cast hps1)
      simpa using this

/-- C2 witness at a concrete valid input. -/
theorem performanceScore_bounds_witness :
    0 ≤ (computeMetrics 10 1 0 0 3600).performance_score ∧
      (computeMetrics 10 1 0 0 3600).performance_score ≤ 100 :=
  performanceScore_bounds 10 1 0 0 3600 (by decide)

/-- C1 — with `viewCount = 0` every returned metric is 0, whatever the
like and comment counts. -/
theorem computeMetrics_zero_views (l c : ℕ) (p t : ℤ) :
    (computeMetrics 0 l c p t).engagement_rate = 0 ∧
      (computeMetrics 0 l c p t).likes_to_views = 0 ∧
      (computeMetrics 0 l c p t).comments_to_views = 0 ∧
      (computeMetrics 0 l c p t).avg_views_per_hour = 0 ∧
      (computeMetrics 0 l c p t).total_engagement = 0 ∧
      (computeMetrics 0 l c p t).performance_score = 0 := by
  simp [computeMetrics, zeroMetrics]

theorem logb10_pow_nat (n : ℕ) : Real.logb 10 ((10 : ℝ) ^ n) = n := by
  rw [Real.logb_pow, Real.logb_self_eq_one (by norm_num)]
  ring

/-- C5 — for a positive view count observed less than one hour after
publication (the publication instant itself included), the hour counter
floors to 1, every division succeeds, and the returned views-per-hour
equals the view count.  -/
theorem avgViewsPerHour_under_one_hour (v l c : ℕ) (p t : ℤ)
    (hv : 0 < v) (hlt : t - p < 3600) :
    hoursSincePublish p t = 1 ∧
      computeMetricsChecked v l c p t = some (computeMetrics v l c p t) ∧
      (computeMetrics v l c p t).avg_views_per_hour = (v : ℝ) := by
  have h1 : hoursSincePublish p t = 1 := hoursSincePublish_eq_one p t hlt.le
  refine ⟨h1, computeMetricsChecked_eq v l c p t, ?_⟩
  rw [computeMetrics_of_view_pos v l c p t hv.ne']
  show round2 ((v : ℝ) / hoursSincePublish p t) = (v : ℝ)
  rw [h1, div_one, round2_natCast]

/-- C5 witness: five views observed half an hour after publication. -/
theorem avgViewsPerHour_under_one_hour_witness :
    hoursSincePublish 0 1800 = 1 ∧
      computeMetricsChecked 5 2 1 0 1800 = some (computeMetrics 5 2 1 0 1800) ∧
      (computeMetrics 5 2 1 0 1800).avg_views_per_hour = ((5 : ℕ) : ℝ) :=
  avgViewsPerHour_under_one_hour 5 2 1 0 1800 (by decide) (by decide)

/-- C9 (amended) — the returned views-per-hour never exceeds the view
count, and within the first hour it equals the view count; the converse
of the equality direction fails (see the counterexample). -/
theorem avgViewsPerHour_le_viewCount (v l c : ℕ) (p t : ℤ) (h : p ≤ t) :
    (computeMetrics v l c p t).avg_views_per_hour ≤ (v : ℝ) ∧
      (t - p ≤ 3600 → (computeMetrics v l c p t).avg_views_per_hour = (v : ℝ)) := by
  by_cases hv : v = 0
  · subst hv
    simp [computeMetrics, zeroMetrics]
  · constructor
    · rw [computeMetrics_of_view_pos v l c p t hv]
      show round2 ((v : ℝ) / hoursSincePublish p t) ≤ (v : ℝ)
      have hle : (v : ℝ) / hoursSincePublish p t ≤ (v : ℝ) :=
        div_le_self (Nat.cast_nonneg v) (one_le_hoursSincePublish p t)
      have := round2_le_intCast ((v : ℝ) / hoursSincePublish p t) (v : ℤ)
        (by push_cast; linarith)
      push_cast at this
      exact this
    · intro hle
      rw [computeMetrics_of_view_pos v l c p t hv]
      show round2 ((v : ℝ) / hoursSincePublish p t) = (v : ℝ)
      rw [hoursSincePublish_eq_one p t hle, div_one, round2_natCast]

/-- C9 witness: 7 views observed exactly one hour after publication. -/
theorem avgViewsPerHour_le_viewCount_witness :
    ((computeMetrics 7 0 0 0 3600).avg_views_per_hour ≤ ((7 : ℕ) : ℝ) ∧
      ((3600 : ℤ) - 0 ≤ 3600 →
        (computeMetrics 7 0 0 0 3600).avg_views_per_hour = ((7 : ℕ) : ℝ))) :=
  avgViewsPerHour_le_viewCount 7 0 0 0 3600 (by decide)

/-- C9 counterexample — one view observed 3601 seconds (more than one
hour) after publication: the true views-per-hour is `3600/3601 < 1`, but
two-decimal rounding returns exactly `1.0 = viewCount`, so equality does
not hold only within the first hour. -/
theorem avgViewsPerHour_eq_after_one_hour :
    (3600 : ℤ) < 3601 - 0 ∧
      (computeMetrics 1 0 0 0 3601).avg_views_per_hour = ((1 : ℕ) : ℝ) := by
  refine ⟨by decide, ?_⟩
  rw [computeMetrics_of_view_pos 1 0 0 0 3601 (by norm_num)]
  show round2 (((1 : ℕ) : ℝ) / hoursSincePublish 0 3601) = ((1 : ℕ) : ℝ)
  have h1 : hoursSincePublish 0 3601 = (3601 : ℝ) / 3600 := by
    unfold hoursSincePublish
    rw [max_eq_left (by norm_num)]
    norm_num
  rw [h1]
  have h2 : (((1 : ℕ) : ℝ)) / ((3601 : ℝ) / 3600) = (3600 : ℝ) / 3601 := by norm_num
  rw [h2]
  have h3 : round2 ((3600 : ℝ) / 3601) = ((100 : ℤ) : ℝ) / 100 := by
    refine round2_eq_of _ 100 (by push_cast; norm_num) (by push_cast; norm_num)
  rw [h3]
  norm_num

theorem le_logb10_of_pow_le (n : ℕ) (x : ℝ) (h : (10 : ℝ) ^ n ≤ x) :
    (n : ℝ) ≤ Real.logb 10 x := by
  have h1 : Real.logb 10 ((10 : ℝ) ^ n) ≤ Real.logb 10 x :=
    Real.logb_le_logb_of_le (by norm_num) (by positivity) h
  rwa [logb10_pow_nat] at h1

theorem lt_logb10_of_pow_lt (n : ℕ) (x : ℝ) (h : (10 : ℝ) ^ n < x) :
    (n : ℝ) < Real.logb 10 x := by
  have h1 : Real.logb 10 ((10 : ℝ) ^ n) < Real.logb 10 x :=
    Real.logb_lt_logb (by norm_num) (by positivity) h
  rwa [logb10_pow_nat] at h1

theorem logb10_le_of_le_pow (n : ℕ) (x : ℝ) (h0 : 0 < x) (h : x ≤ (10 : ℝ) ^ n) :
    Real.logb 10 x ≤ (n : ℝ) := by
  have h1 : Real.logb 10 x ≤ Real.logb 10 ((10 : ℝ) ^ n) :=
    Real.logb_le_logb_of_le (by norm_num) h0 h
  rwa [logb10_pow_nat] at h1

theorem one_lt_log_ten : 1 < Real.log 10 := by
  rw [Real.lt_log_iff_exp_lt (by norm_num)]
  calc Real.exp 1 < 2.7182818286 := Real.exp_one_lt_d9
    _ < 10 := by norm_num

/-- The value `log10(1000001)` exceeds 6 by less than `0.001`. -/
theorem logb10_1000001_lt : Real.logb 10 1000001 < 6.001 := by
  have hsplit : Real.log 1000001 =
      6 * Real.log 10 + Real.log ((1000001 : ℝ) / 1000000) := by
    have h1 : (1000001 : ℝ) = (10 : ℝ) ^ (6 : ℕ) * ((1000001 : ℝ) / 1000000) := by
      norm_num
    rw [h1, Real.log_mul (by positivity) (by norm_num), Real.log_pow]
    norm_num
  have hsmall : Real.log ((1000001 : ℝ) / 1000000) ≤ 1 / 1000000 := by
    have h2 := Real.log_le_sub_one_of_pos
      (show (0 : ℝ) < (1000001 : ℝ) / 1000000 by norm_num)
    have h3 : (1000001 : ℝ) / 1000000 - 1 = 1 / 1000000 := by norm_num
    linarith
  have hlt : Real.log 1000001 < 6.001 * Real.log 10 := by
    have := one_lt_log_ten
    nlinarith
  rw [Real.logb, div_lt_iff₀ (by linarith [one_lt_log_ten])]
  exact hlt

theorem logb10_1000001_gt : (6 : ℝ) < Real.logb 10 1000001 := by
  have h := lt_logb10_of_pow_lt 6 1000001 (by norm_num)
  exact_mod_cast h

/-- Shared evaluation of the spec's round-trip example: posting time 0,
observation 10 hours (36000 s) later. -/
theorem perf_example_eq :
    (computeMetrics 1000000 50000 5000 0 36000).performance_score = 68.25 := by
  rw [computeMetrics_of_view_pos 1000000 50000 5000 0 36000 (by norm_num)]
  show round2 ((0.4 * normalized_views 1000000 +
      0.3 * min ((((50000 + 5000 : ℕ) : ℝ) / ((1000000 : ℕ) : ℝ) * 100) / 20) 1 +
      0.3 * min ((((1000000 : ℕ) : ℝ) / hoursSincePublish 0 36000) / 10000) 1) *
      100) = 68.25
  have hh : hoursSincePublish 0 36000 = 10 := by
    unfold hoursSincePublish
    rw [max_eq_left (by norm_num)]
    norm_num
  rw [hh]
  have hne : min ((((50000 + 5000 : ℕ) : ℝ) / ((1000000 : ℕ) : ℝ) * 100) / 20) 1
      = 0.275 := by
    rw [min_eq_left (by push_cast; norm_num)]
    push_cast
    norm_num
  have hvel : min ((((1000000 : ℕ) : ℝ) / 10) / 10000) 1 = 1 := by
    rw [min_eq_right (by push_cast; norm_num)]
  rw [hne, hvel]
  have hnv : normalized_views 1000000 = Real.logb 10 1000001 / 8 := by
    unfold normalized_views
    rw [min_eq_left]
    · norm_num
    · have := logb10_1000001_lt
      linarith
  rw [hnv]
  have hgt := logb10_1000001_gt
  have hlt := logb10_1000001_lt
  have h68 : round2 ((0.4 * (Real.logb 10 1000001 / 8) + 0.3 * 0.275 + 0.3 * 1) *
      100) = ((6825 : ℤ) : ℝ) / 100 := by
    refine round2_eq_of _ 6825 (by push_cast; nlinarith) (by push_cast; nlinarith)
  rw [h68]
  norm_num

/-- C3 (amended) — the spec's worked example, with the performance score
corrected from `≈ 59.25` to its true value `68.25`: the weighted sum
`(0.4 × 0.75 + 0.3 × 0.275 + 0.3 × 1.0) × 100` is `68.25`, not `59.25`. -/
theorem computeMetrics_example :
    (computeMetrics 1000000 50000 5000 0 36000).engagement_rate = 5.5 ∧
      (computeMetrics 1000000 50000 5000 0 36000).avg_views_per_hour = 100000 ∧
      (computeMetrics 1000000 50000 5000 0 36000).total_engagement = 55000 ∧
      0.75 < normalized_views 1000000 ∧ normalized_views 1000000 < 0.7502 ∧
      (computeMetrics 1000000 50000 5000 0 36000).performance_score = 68.25 := by
  have hh : hoursSincePublish 0 36000 = 10 := by
    unfold hoursSincePublish
    rw [max_eq_left (by norm_num)]
    norm_num
  have hnv : normalized_views 1000000 = Real.logb 10 1000001 / 8 := by
    unfold normalized_views
    rw [min_eq_left]
    · norm_num
    · have := logb10_1000001_lt
      linarith
  refine ⟨?_, ?_, ?_, ?_, ?_, perf_example_eq⟩
  · rw [computeMetrics_of_view_pos 1000000 50000 5000 0 36000 (by norm_num)]
    show round2 (((50000 + 5000 : ℕ) : ℝ) / ((1000000 : ℕ) : ℝ) * 100) = 5.5
    have h1 : ((50000 + 5000 : ℕ) : ℝ) / ((1000000 : ℕ) : ℝ) * 100 = 5.5 := by
      push_cast
      norm_num
    rw [h1]
    have h2 : round2 (5.5 : ℝ) = ((550 : ℤ) : ℝ) / 100 := by
      refine round2_eq_of _ 550 (by push_cast; norm_num) (by push_cast; norm_num)
    rw [h2]
    norm_num
  · rw [computeMetrics_of_view_pos 1000000 50000 5000 0 36000 (by norm_num)]
    show round2 (((1000000 : ℕ) : ℝ) / hoursSincePublish 0 36000) = 100000
    rw [hh]
    have h1 : ((1000000 : ℕ) : ℝ) / 10 = ((100000 : ℕ) : ℝ) := by
      push_cast
      norm_num
    rw [h1, round2_natCast]
    norm_num
  · rw [computeMetrics_of_view_pos 1000000 50000 5000 0 36000 (by norm_num)]
  · rw [hnv]
    have := logb10_1000001_gt
    linarith
  · rw [hnv]
    have := logb10_1000001_lt
    linarith

/-- C3 counterexample — on the spec's round-trip example the returned
performance score is `68.25`, not approximately `59.25`: the spec's
arithmetic for the weighted sum is wrong by 9 points. -/
theorem computeMetrics_example_not_59 :
    (computeMetrics 1000000 50000 5000 0 36000).performance_score ≠ 59.25 ∧
      59.25 + 8 < (computeMetrics 1000000 50000 5000 0 36000).performance_score := by
  rw [perf_example_eq]
  norm_num

/-- C4 (amended) — holding everything else fixed, increasing the view
count strictly increases `normalized_views` while that sub-score is below
its cap of 1.  The spec's further conclusion that the performance score
then weakly increases is false (see the counterexample): raising views
lowers the engagement rate, which can drag the weighted score down. -/
theorem normalized_views_strictMono (v1 v2 : ℕ) (h12 : v1 < v2)
    (hcap : normalized_views v2 < 1) :
    normalized_views v1 < normalized_views v2 := by
  have hx2 : Real.logb 10 ((v2 : ℝ) + 1) / 8 < 1 := by
    by_contra hge
    push_neg at hge
    have : normalized_views v2 = 1 := by
      unfold normalized_views
      exact min_eq_right hge
    rw [this] at hcap
    exact lt_irrefl 1 hcap
  have hlt : Real.logb 10 ((v1 : ℝ) + 1) < Real.logb 10 ((v2 : ℝ) + 1) := by
    refine Real.logb_lt_logb (by norm_num) (by positivity) ?_
    have : (v1 : ℝ) < (v2 : ℝ) := by exact_mod_cast h12
    linarith
  have hx1 : Real.logb 10 ((v1 : ℝ) + 1) / 8 < Real.logb 10 ((v2 : ℝ) + 1) / 8 := by
    linarith
  unfold normalized_views
  rw [min_eq_left (by linarith), min_eq_left hx2.le]
  exact hx1

/-- C4 witness: views 10 versus 20, both far below the `normalized_views`
cap. -/
theorem normalized_views_strictMono_witness :
    normalized_views 10 < normalized_views 20 := by
  refine normalized_views_strictMono 10 20 (by decide) ?_
  unfold normalized_views
  have e : (((20 : ℕ) : ℝ)) + 1 = 21 := by norm_num
  rw [e]
  have h21 : Real.logb 10 21 ≤ ((2 : ℕ) : ℝ) :=
    logb10_le_of_le_pow 2 21 (by norm_num) (by norm_num)
  push_cast at h21
  calc min (Real.logb 10 21 / 8) 1 ≤ Real.logb 10 21 / 8 := min_le_left _ _
    _ ≤ (2 : ℝ) / 8 := by linarith
    _ < 1 := by norm_num

theorem normalized_views_1000_ge : (3 : ℝ) / 8 ≤ normalized_views 1000 := by
  unfold normalized_views
  have e : (((1000 : ℕ) : ℝ)) + 1 = 1001 := by norm_num
  rw [e]
  refine le_min ?_ (by norm_num)
  have h : ((3 : ℕ) : ℝ) ≤ Real.logb 10 1001 :=
    le_logb10_of_pow_le 3 1001 (by norm_num)
  push_cast at h
  linarith

theorem normalized_views_2000_le : normalized_views 2000 ≤ (1 : ℝ) / 2 := by
  unfold normalized_views
  have e : (((2000 : ℕ) : ℝ)) + 1 = 2001 := by norm_num
  rw [e]
  have h : Real.logb 10 2001 ≤ ((4 : ℕ) : ℝ) :=
    logb10_le_of_le_pow 4 2001 (by norm_num) (by norm_num)
  push_cast at h
  calc min (Real.logb 10 2001 / 8) 1 ≤ Real.logb 10 2001 / 8 := min_le_left _ _
    _ ≤ (1 : ℝ) / 2 := by linarith

/-- C4 counterexample — with like count 100, comment count 0, publication
time 0 and observation a million hours later, doubling the views from
1000 to 2000 strictly DECREASES the returned performance score (about
30.0 versus about 24.0): the engagement-rate sub-score halves while the
view sub-score gains little, so the score is not weakly increasing in the
view count. -/
theorem performanceScore_not_monotone :
    (computeMetrics 2000 100 0 0 3600000000).performance_score <
      (computeMetrics 1000 100 0 0 3600000000).performance_score := by
  have hh : hoursSincePublish 0 3600000000 = 1000000 := by
    unfold hoursSincePublish
    rw [max_eq_left (by norm_num)]
    norm_num
  rw [computeMetrics_of_view_pos 2000 100 0 0 3600000000 (by norm_num),
    computeMetrics_of_view_pos 1000 100 0 0 3600000000 (by norm_num)]
  show round2 ((0.4 * normalized_views 2000 +
      0.3 * min ((((100 + 0 : ℕ) : ℝ) / ((2000 : ℕ) : ℝ) * 100) / 20) 1 +
      0.3 * min ((((2000 : ℕ) : ℝ) / hoursSincePublish 0 3600000000) / 10000) 1) *
      100) <
    round2 ((0.4 * normalized_views 1000 +
      0.3 * min ((((100 + 0 : ℕ) : ℝ) / ((1000 : ℕ) : ℝ) * 100) / 20) 1 +
      0.3 * min ((((1000 : ℕ) : ℝ) / hoursSincePublish 0 3600000000) / 10000) 1) *
      100)
  rw [hh]
  have hm1 : min ((((100 + 0 : ℕ) : ℝ) / ((2000 : ℕ) : ℝ) * 100) / 20) 1 = 1 / 4 := by
    rw [min_eq_left (by push_cast; norm_num)]
    push_cast
    norm_num
  have hm2 : min ((((2000 : ℕ) : ℝ) / 1000000) / 10000) 1 = 1 / 5000000 := by
    rw [min_eq_left (by push_cast; norm_num)]
    push_cast
    norm_num
  have hm3 : min ((((100 + 0 : ℕ) : ℝ) / ((1000 : ℕ) : ℝ) * 100) / 20) 1 = 1 / 2 := by
    rw [min_eq_left (by push_cast; norm_num)]
    push_cast
    norm_num
  have hm4 : (0 : ℝ) ≤ min ((((1000 : ℕ) : ℝ) / 1000000) / 10000) 1 :=
    le_min (by positivity) (by norm_num)
  rw [hm1, hm2, hm3]
  have hA := round2_le_add ((0.4 * normalized_views 2000 + 0.3 * (1 / 4 : ℝ) +
    0.3 * (1 / 5000000 : ℝ)) * 100)
  have hB := sub_le_round2 ((0.4 * normalized_views 1000 + 0.3 * (1 / 2 : ℝ) +
    0.3 * min ((((1000 : ℕ) : ℝ) / 1000000) / 10000) 1) * 100)
  have h2000 := normalized_views_2000_le
  have h1000 := normalized_views_1000_ge
  nlinarith

/-- C8 — in the model, `calculate_engagement_metrics` is a pure total
function of its five inputs (counters, parsed publication time, and the
`datetime.utcnow()` reading the spec names `observationTime`): the
division-checked evaluation never fails and always returns exactly the
value of the mathematical function `computeMetrics`, so equal arguments
give equal results and no input raises an error. -/
theorem computeMetrics_pure_total (v l c : ℕ) (p t : ℤ) :
    computeMetricsChecked v l c p t = some (computeMetrics v l c p t) :=
  computeMetricsChecked_eq v l c p t

/-- One entry of the `shorts_data` list handed to the final sort (source
lines 271-292): identity and descriptive fields plus the score the sort
key reads.  The score is rational (a two-decimal value in the source). -/
structure ScoredRecord where
  video_id : String
  title : String
  channel_title : String
  channel_id : String
  performance_score : ℚ
deriving DecidableEq

/-- The ordering used by `shorts_data.sort(key=lambda x:
x['performance_score'], reverse=True)`: `a` may precede `b` when `b`'s
score is at most `a`'s. -/
def scoreLE (a b : ScoredRecord) : Prop :=
  b.performance_score ≤ a.performance_score

instance : DecidableRel scoreLE :=
  fun a b => inferInstanceAs (Decidable (_ ≤ _))

instance : IsTotal ScoredRecord scoreLE :=
  ⟨fun a b => le_total b.performance_score a.performance_score⟩

instance : IsTrans ScoredRecord scoreLE :=
  ⟨fun _ _ _ hab hbc => le_trans hbc hab⟩

/-- The Ranker (source line 301): a stable sort of the scored records by
performance score, descending.  Python's `list.sort` is a stable sort;
it is modelled by stable insertion sort. -/
def rank (records : List ScoredRecord) : List ScoredRecord :=
  List.insertionSort scoreLE records

/-- The in-place sort statement `shorts_data.sort(...)` (source lines
300-301) as a transition on the local variable: the first component is
the content of the `shorts_data` list object after the call (`list.sort`
mutates it), the second the value the following code reads — the same,
now sorted, object. -/
def sortShortsData (shorts_data : List ScoredRecord) :
    List ScoredRecord × List ScoredRecord :=
  (rank shorts_data, rank shorts_data)

theorem filter_orderedInsert (s : ℚ) (a : ScoredRecord) (l : List ScoredRecord) :
    (List.orderedInsert scoreLE a l).filter (fun r => r.performance_score == s) =
      if a.performance_score = s
      then a :: l.filter (fun r => r.performance_score == s)
      else l.filter (fun r => r.performance_score == s) := by
  induction l with
  | nil =>
    by_cases hs : a.performance_score = s
    · simp [List.orderedInsert, hs]
    · simp [List.orderedInsert, hs]
  | cons b t ih =>
    by_cases hab : scoreLE a b
    · simp only [List.orderedInsert, if_pos hab]
      by_cases hs : a.performance_score = s
      · simp [List.filter_cons, hs]
      · simp [List.filter_cons, hs]
    · simp only [List.orderedInsert, if_neg hab]
      have hlt : a.performance_score < b.performance_score := not_le.mp hab
      by_cases hs : a.performance_score = s
      · have hbs : ¬ b.performance_score = s := by
          intro hb
          rw [hs] at hlt
          rw [hb] at hlt
          exact lt_irrefl s hlt
        simp [List.filter_cons, ih, hs, hbs]
      · simp [List.filter_cons, ih, hs]

theorem filter_insertionSort (s : ℚ) (l : List ScoredRecord) :
    (List.insertionSort scoreLE l).filter (fun r => r.performance_score == s) =
      l.filter (fun r => r.performance_score == s) := by
  induction l with
  | nil => rfl
  | cons a t ih =>
    simp only [List.insertionSort]
    rw [filter_orderedInsert]
    by_cases hs : a.performance_score = s
    · rw [if_pos hs, ih, List.filter_cons, if_pos (by simp [hs])]
    · rw [if_neg hs, ih, List.filter_cons, if_neg (by simp [hs])]

/-- C6 — the ranked output is sorted by performance score descending, is
a permutation of the input, and the sort is stable: for any score value,
the records carrying that score appear in the output in exactly their
input order. -/
theorem rank_sorted_stable (l : List ScoredRecord) :
    List.Sorted (fun a b => b.performance_score ≤ a.performance_score) (rank l) ∧
      (rank l).Perm l ∧
      ∀ s : ℚ, (rank l).filter (fun r => r.performance_score == s) =
        l.filter (fun r => r.performance_score == s) :=
  ⟨List.sorted_insertionSort scoreLE l, List.perm_insertionSort scoreLE l,
    fun s => filter_insertionSort s l⟩

/-- C7 counterexample — `list.sort` sorts in place: after the ranking
statement runs on two records in ascending score order, the input list
object no longer holds its original sequence, so the input is mutated
rather than preserved. -/
theorem sortShortsData_mutates :
    (sortShortsData
      [{ video_id := "vidA", title := "tA", channel_title := "cA",
         channel_id := "idA", performance_score := 1 },
       { video_id := "vidB", title := "tB", channel_title := "cB",
         channel_id := "idB", performance_score := 2 }]).1 ≠
      [{ video_id := "vidA", title := "tA", channel_title := "cA",
         channel_id := "idA", performance_score := 1 },
       { video_id := "vidB", title := "tB", channel_title := "cB",
         channel_id := "idB", performance_score := 2 }] := by
  decide

/-- C7 (amended) — the ranking statement mutates the input list in place:
afterwards the input object and the ranked output are the same list,
holding the ranked order, and that list is a permutation of the original
records (no record is lost or duplicated, but the original order is not
preserved). -/
theorem sortShortsData_in_place (l : List ScoredRecord) :
    (sortShortsData l).1 = (sortShortsData l).2 ∧
      (sortShortsData l).1.Perm l :=
  ⟨rfl, List.perm_insertionSort scoreLE l⟩

/-- One item of `search_response['items']` (source lines 235-237): the
video id and the channel id the dedup step reads. -/
structure SearchItem where
  video_id : String
  channel_id : String
deriving DecidableEq

/-- The fields read from `video_response['items'][0]` (source lines
253-260). -/
structure VideoDetails where
  title : String
  channel_title : String
  view_count : ℕ
  like_count : ℕ
  comment_count : ℕ
  duration : String
deriving DecidableEq

/-- The identifying part of the `video_data` dictionary appended to
`shorts_data` (source lines 271-292); the engagement-metric entries are
`computeMetrics` of the counters and add nothing to the dedup claims. -/
structure VideoData where
  video_id : String
  channel_id : String
  view_count : ℕ
  like_count : ℕ
  comment_count : ℕ
deriving DecidableEq

/-- The loop state of `analyze_shorts` (source lines 230-297):
`seen_channels`, the accumulating `shorts_data`, the quota counter, and —
for the skipped-before-fetch property — the items whose details request
was actually issued. -/
structure AnalyzerState where
  seen_channels : List String
  shorts_data : List VideoData
  quota_used : ℕ
  fetched : List SearchItem
deriving DecidableEq

/-- The source constant `QUOTA_COSTS['search']`. -/
def QUOTA_COST_SEARCH : ℕ := 100

/-- The source constant `QUOTA_COSTS['video']`. -/
def QUOTA_COST_VIDEO : ℕ := 1

/-- The source constant `self.max_quota`. -/
def MAX_QUOTA : ℕ := 10000

/-- One non-skipped loop iteration (source lines 243-292): record the
channel, issue the details request (`details` plays the role of the
`videos().list` API: `none` models an empty `items` response), charge the
quota, and append the assembled record when details came back. -/
def stepState (details : String → Option VideoDetails) (item : SearchItem)
    (s : AnalyzerState) : AnalyzerState :=
  { seen_channels := item.channel_id :: s.seen_channels
    shorts_data :=
      match details item.video_id with
      | some d => s.shorts_data ++
          [{ video_id := item.video_id, channel_id := item.channel_id,
             view_count := d.view_count, like_count := d.like_count,
             comment_count := d.comment_count }]
      | none => s.shorts_data
    quota_used := s.quota_used + QUOTA_COST_VIDEO
    fetched := s.fetched ++ [item] }

/-- The `for item in search_response.get('items', [])` loop (source lines
235-297): a seen channel is skipped with `continue` (bypassing the quota
check); otherwise the item is processed and the loop breaks once the
quota bound is reached. -/
def processItems (details : String → Option VideoDetails) :
    List SearchItem → AnalyzerState → AnalyzerState
  | [], s => s
  | item :: rest, s =>
    if item.channel_id ∈ s.seen_channels then
      processItems details rest s
    else
      if MAX_QUOTA ≤ (stepState details item s).quota_used then
        stepState details item s
      else
        processItems details rest (stepState details item s)

/-- The loop's starting state: nothing seen, the search request already
charged (source lines 230-233). -/
def initState : AnalyzerState :=
  { seen_channels := [], shorts_data := [], quota_used := QUOTA_COST_SEARCH,
    fetched := [] }

/-- The `shorts_data` list assembled by the collection loop, before the
final sort. -/
def collectShorts (details : String → Option VideoDetails)
    (items : List SearchItem) : List VideoData :=
  (processItems details items initState).shorts_data

/-- The video id of the first search item of a given channel, in
search-result order. -/
def firstVideoOfChannel (items : List SearchItem) (c : String) : Option String :=
  (items.find? (fun i => i.channel_id == c)).map (fun i => i.video_id)

theorem stepState_fetched (d : String → Option VideoDetails) (i : SearchItem)
    (s : AnalyzerState) : (stepState d i s).fetched = s.fetched ++ [i] := rfl

theorem stepState_seen (d : String → Option VideoDetails) (i : SearchItem)
    (s : AnalyzerState) :
    (stepState d i s).seen_channels = i.channel_id :: s.seen_channels := rfl

/-- Provenance of a fetched item: it was already fetched, or it occurs in
the input with no earlier item of the same channel and its channel not
yet seen. -/
theorem mem_fetched_processItems (d : String → Option VideoDetails)
    (items : List SearchItem) :
    ∀ (s : AnalyzerState) (x : SearchItem),
      x ∈ (processItems d items s).fetched →
      x ∈ s.fetched ∨
        (x.channel_id ∉ s.seen_channels ∧
          ∃ l1 l2, items = l1 ++ x :: l2 ∧
            ∀ y ∈ l1, y.channel_id ≠ x.channel_id) := by
  induction items with
  | nil =>
    intro s x hx
    exact Or.inl hx
  | cons item rest ih =>
    intro s x hx
    rw [processItems] at hx
    by_cases hmem : item.channel_id ∈ s.seen_channels
    · rw [if_pos hmem] at hx
      rcases ih s x hx with h | ⟨hns, l1, l2, heq, hall⟩
      · exact Or.inl h
      · refine Or.inr ⟨hns, item :: l1, l2, by rw [heq]; rfl, ?_⟩
        intro y hy
        rcases List.mem_cons.mp hy with rfl | hy'
        · intro hc
          rw [hc] at hmem
          exact hns hmem
        · exact hall y hy'
    · rw [if_neg hmem] at hx
      have hbase : x ∈ (stepState d item s).fetched →
          x ∈ s.fetched ∨
            (x.channel_id ∉ s.seen_channels ∧
              ∃ l1 l2, item :: rest = l1 ++ x :: l2 ∧
                ∀ y ∈ l1, y.channel_id ≠ x.channel_id) := by
        intro hx'
        rw [stepState_fetched] at hx'
        rcases List.mem_append.mp hx' with h | h
        · exact Or.inl h
        · have hxi : x = item := by simpa using h
          subst hxi
          exact Or.inr ⟨hmem, [], rest, rfl, by simp⟩
      by_cases hq : MAX_QUOTA ≤ (stepState d item s).quota_used
      · rw [if_pos hq] at hx
        exact hbase hx
      · rw [if_neg hq] at hx
        rcases ih (stepState d item s) x hx with h | ⟨hns, l1, l2, heq, hall⟩
        · exact hbase h
        · rw [stepState_seen] at hns
          have hns' : x.channel_id ∉ s.seen_channels := fun hc =>
            hns (List.mem_cons_of_mem _ hc)
          have hni : x.channel_id ≠ item.channel_id := fun hc =>
            hns (by rw [hc]; exact List.mem_cons_self _ _)
          refine Or.inr ⟨hns', item :: l1, l2, by rw [heq]; rfl, ?_⟩
          intro y hy
          rcases List.mem_cons.mp hy with rfl | hy'
          · exact fun hc => hni hc.symm
          · exact hall y hy'

/-- Provenance of a collected record: it was already collected, or it
stems from the first input item of its channel, that channel unseen. -/
theorem mem_shorts_processItems (d : String → Option VideoDetails)
    (items : List SearchItem) :
    ∀ (s : AnalyzerState) (r : VideoData),
      r ∈ (processItems d items s).shorts_data →
      r ∈ s.shorts_data ∨
        ∃ i l1 l2, items = l1 ++ i :: l2 ∧
          r.video_id = i.video_id ∧ r.channel_id = i.channel_id ∧
          i.channel_id ∉ s.seen_channels ∧
          ∀ y ∈ l1, y.channel_id ≠ i.channel_id := by
  induction items with
  | nil =>
    intro s r hr
    exact Or.inl hr
  | cons item rest ih =>
    intro s r hr
    rw [processItems] at hr
    by_cases hmem : item.channel_id ∈ s.seen_channels
    · rw [if_pos hmem] at hr
      rcases ih s r hr with h | ⟨i, l1, l2, heq, hv, hc, hns, hall⟩
      · exact Or.inl h
      · refine Or.inr ⟨i, item :: l1, l2, by rw [heq]; rfl, hv, hc, hns, ?_⟩
        intro y hy
        rcases List.mem_cons.mp hy with rfl | hy'
        · intro hceq
          rw [hceq] at hmem
          exact hns hmem
        · exact hall y hy'
    · rw [if_neg hmem] at hr
      have hbase : r ∈ (stepState d item s).shorts_data →
          r ∈ s.shorts_data ∨
            ∃ i l1 l2, item :: rest = l1 ++ i :: l2 ∧
              r.video_id = i.video_id ∧ r.channel_id = i.channel_id ∧
              i.channel_id ∉ s.seen_channels ∧
              ∀ y ∈ l1, y.channel_id ≠ i.channel_id := by
        intro hr'
        cases hdet : d item.video_id with
        | none =>
          simp only [stepState, hdet] at hr'
          exact Or.inl hr'
        | some det =>
          simp only [stepState, hdet] at hr'
          rcases List.mem_append.mp hr' with h | h
          · exact Or.inl h
          · have hri : r =
                { video_id := item.video_id, channel_id := item.channel_id,
                  view_count := det.view_count, like_count := det.like_count,
                  comment_count := det.comment_count } := by simpa using h
            refine Or.inr ⟨item, [], rest, rfl, ?_, ?_, hmem, by simp⟩
            · rw [hri]
            · rw [hri]
      by_cases hq : MAX_QUOTA ≤ (stepState d item s).quota_used
      · rw [if_pos hq] at hr
        exact hbase hr
      · rw [if_neg hq] at hr
        rcases ih (stepState d item s) r hr with h | ⟨i, l1, l2, heq, hv, hc, hns, hall⟩
        · exact hbase h
        · rw [stepState_seen] at hns
          have hns' : i.channel_id ∉ s.seen_channels := fun hcm =>
            hns (List.mem_cons_of_mem _ hcm)
          have hni : i.channel_id ≠ item.channel_id := fun hcm =>
            hns (by rw [hcm]; exact List.mem_cons_self _ _)
          refine Or.inr ⟨i, item :: l1, l2, by rw [heq]; rfl, hv, hc, hns', ?_⟩
          intro y hy
          rcases List.mem_cons.mp hy with rfl | hy'
          · exact fun hcm => hni hcm.symm
          · exact hall y hy'

/-- The loop invariant: collected channels are among the seen channels
and are pairwise distinct; both survive to the final state. -/
theorem shorts_channels_nodup (d : String → Option VideoDetails)
    (items : List SearchItem) :
    ∀ s : AnalyzerState,
      (∀ r ∈ s.shorts_data, r.channel_id ∈ s.seen_channels) →
      ((s.shorts_data.map VideoData.channel_id).Nodup) →
      (((processItems d items s).shorts_data.map VideoData.channel_id).Nodup ∧
        ∀ r ∈ (processItems d items s).shorts_data,
          r.channel_id ∈ (processItems d items s).seen_channels) := by
  induction items with
  | nil =>
    intro s hsub hnd
    exact ⟨hnd, hsub⟩
  | cons item rest ih =>
    intro s hsub hnd
    rw [processItems]
    by_cases hmem : item.channel_id ∈ s.seen_channels
    · rw [if_pos hmem]
      exact ih s hsub hnd
    · rw [if_neg hmem]
      have hsub1 : ∀ r ∈ (stepState d item s).shorts_data,
          r.channel_id ∈ (stepState d item s).seen_channels := by
        intro r hr
        rw [stepState_seen]
        cases hdet : d item.video_id with
        | none =>
          simp only [stepState, hdet] at hr
          exact List.mem_cons_of_mem _ (hsub r hr)
        | some det =>
          simp only [stepState, hdet] at hr
          rcases List.mem_append.mp hr with h | h
          · exact List.mem_cons_of_mem _ (hsub r h)
          · have hri : r.channel_id = item.channel_id := by
              have := List.mem_singleton.mp h
              rw [this]
            rw [hri]
            exact List.mem_cons_self _ _
      have hnd1 : ((stepState d item s).shorts_data.map VideoData.channel_id).Nodup := by
        cases hdet : d item.video_id with
        | none =>
          simp only [stepState, hdet]
          exact hnd
        | some det =>
          simp only [stepState, hdet]
          rw [List.map_append]
          rw [List.nodup_append]
          refine ⟨hnd, List.nodup_singleton _, ?_⟩
          intro a ha hb
          have hai : a = item.channel_id := by simpa using hb
          rcases List.mem_map.mp ha with ⟨r, hr, hrc⟩
          apply hmem
          rw [← hai, ← hrc]
          exact hsub r hr
      by_cases hq : MAX_QUOTA ≤ (stepState d item s).quota_used
      · rw [if_pos hq]
        exact ⟨hnd1, hsub1⟩
      · rw [if_neg hq]
        exact ih (stepState d item s) hsub1 hnd1

theorem find_first_occurrence {α : Type} (p : α → Bool) :
    ∀ (l1 : List α) (x : α) (l2 : List α),
      (∀ y ∈ l1, p y = false) → p x = true →
      List.find? p (l1 ++ x :: l2) = some x := by
  intro l1
  induction l1 with
  | nil =>
    intro x l2 _ hx
    simp [List.find?_cons, hx]
  | cons a t ih =>
    intro x l2 hall hx
    have ha : p a = false := hall a (List.mem_cons_self a t)
    have ht : ∀ y ∈ t, p y = false := fun y hy =>
      hall y (List.mem_cons_of_mem a hy)
    simp only [List.cons_append, List.find?_cons, ha]
    exact ih x l2 ht hx

theorem firstSegment_eq_of_nodup {α : Type} :
    ∀ (l1 : List α) (a : List α) (x : α) (l2 b : List α),
      (l1 ++ x :: l2).Nodup → l1 ++ x :: l2 = a ++ x :: b → l1 = a := by
  intro l1
  induction l1 with
  | nil =>
    intro a x l2 b hnd heq
    cases a with
    | nil => rfl
    | cons c a' =>
      exfalso
      simp only [List.nil_append, List.cons_append] at heq
      have hx : x = c := (List.cons.injEq _ _ _ _).mp heq |>.1
      have hl : l2 = a' ++ x :: b := (List.cons.injEq _ _ _ _).mp heq |>.2
      have hxmem : x ∈ l2 := by
        rw [hl]
        exact List.mem_append_right a' (List.mem_cons_self x b)
      simp only [List.nil_append, List.nodup_cons] at hnd
      exact hnd.1 hxmem
  | cons c t ih =>
    intro a x l2 b hnd heq
    cases a with
    | nil =>
      exfalso
      simp only [List.cons_append, List.nil_append] at heq
      have hx : c = x := (List.cons.injEq _ _ _ _).mp heq |>.1
      have hl : t ++ x :: l2 = b := (List.cons.injEq _ _ _ _).mp heq |>.2
      simp only [List.cons_append, List.nodup_cons] at hnd
      apply hnd.1
      rw [hx]
      exact List.mem_append_right t (List.mem_cons_self x l2)
    | cons ca a' =>
      simp only [List.cons_append] at heq
      have hc : c = ca := (List.cons.injEq _ _ _ _).mp heq |>.1
      have hl : t ++ x :: l2 = a' ++ x :: b := (List.cons.injEq _ _ _ _).mp heq |>.2
      simp only [List.cons_append, List.nodup_cons] at hnd
      rw [hc, ih a' x l2 b hnd.2 hl]

/-- C10 — the collection loop keeps at most one record per channel id:
the collected channel ids are pairwise distinct, every collected record
stems from the first search item of its channel, and (for distinct video
ids) an item with an earlier same-channel item is never fetched — its
details request is skipped. -/
theorem channel_dedup (d : String → Option VideoDetails)
    (items : List SearchItem) :
    ((collectShorts d items).map VideoData.channel_id).Nodup ∧
      (∀ r ∈ collectShorts d items,
        firstVideoOfChannel items r.channel_id = some r.video_id) ∧
      ((items.map SearchItem.video_id).Nodup →
        ∀ l1 x l2, items = l1 ++ x :: l2 →
          (∃ y ∈ l1, y.channel_id = x.channel_id) →
          x ∉ (processItems d items initState).fetched) := by
  refine ⟨?_, ?_, ?_⟩
  · have h := shorts_channels_nodup d items initState (by intro r hr; cases hr)
      (by simp [initState])
    exact h.1
  · intro r hr
    have h := mem_shorts_processItems d items initState r hr
    rcases h with h | ⟨i, l1, l2, heq, hv, hc, _, hall⟩
    · cases h
    · unfold firstVideoOfChannel
      rw [heq]
      have hfind : List.find? (fun j => j.channel_id == r.channel_id)
          (l1 ++ i :: l2) = some i := by
        refine find_first_occurrence _ l1 i l2 ?_ ?_
        · intro y hy
          have hne : y.channel_id ≠ i.channel_id := hall y hy
          rw [hc]
          exact beq_eq_false_iff_ne.mpr hne
        · rw [hc]
          exact beq_self_eq_true i.channel_id
      rw [hfind]
      simp [hv]
  · intro hnd l1 x l2 heq ⟨y, hy, hyc⟩ hx
    have h := mem_fetched_processItems d items initState x hx
    rcases h with h | ⟨_, a, b, heq2, hall2⟩
    · cases h
    · have hlnd : items.Nodup := List.Nodup.of_map SearchItem.video_id hnd
      have hpre : l1 = a := by
        refine firstSegment_eq_of_nodup l1 a x l2 b ?_ ?_
        · rw [← heq]
          exact hlnd
        · rw [← heq, ← heq2]
      exact hall2 y (hpre ▸ hy) hyc

/-- A concrete details oracle for the C10 witness. -/
def exampleDetails : String → Option VideoDetails :=
  fun v =>
    if v = "v1" then
      some { title := "T1", channel_title := "Ch1", view_count := 100,
             like_count := 10, comment_count := 1, duration := "PT30S" }
    else if v = "v2" then
      some { title := "T2", channel_title := "Ch1", view_count := 50,
             like_count := 5, comment_count := 0, duration := "PT20S" }
    else if v = "v3" then
      some { title := "T3", channel_title := "Ch2", view_count := 20,
             like_count := 2, comment_count := 0, duration := "PT10S" }
    else none

/-- Three search results; the second shares its channel with the first. -/
def exampleItems : List SearchItem :=
  [{ video_id := "v1", channel_id := "c1" },
   { video_id := "v2", channel_id := "c1" },
   { video_id := "v3", channel_id := "c2" }]

/-- C10 witness — on the concrete three-item search the collected channel
ids are distinct, the record for channel c2 is its first video v3, and
the duplicate-channel item v2 is never fetched. -/
theorem channel_dedup_witness :
    ((collectShorts exampleDetails exampleItems).map VideoData.channel_id).Nodup ∧
      firstVideoOfChannel exampleItems "c2" = some "v3" ∧
      ({ video_id := "v2", channel_id := "c1" } : SearchItem) ∉
        (processItems exampleDetails exampleItems initState).fetched := by
  obtain ⟨h1, h2, h3⟩ := channel_dedup exampleDetails exampleItems
  refine ⟨h1, ?_, ?_⟩
  · have hr :
        ({ video_id := "v3", channel_id := "c2", view_count := 20,
           like_count := 2, comment_count := 0 } : VideoData) ∈
          collectShorts exampleDetails exampleItems := by decide
    exact h2 _ hr
  · exact h3 (by decide)
      [{ video_id := "v1", channel_id := "c1" }]
      { video_id := "v2", channel_id := "c1" }
      [{ video_id := "v3", channel_id := "c2" }] rfl
      ⟨{ video_id := "v1", channel_id := "c1" }, by decide, rfl⟩

end YTShorts
